import Mathlib

/-!
Shallow embedding of the CUDA path tracer (`src/cuda_pathtracer/src/AgingEffects.cu`
and the concatenated `raytracer_kernel` translation unit) in Lean 4.

Modelling conventions:
* `float` arithmetic is modelled exactly over `ℚ`; every float literal is the
  corresponding rational.
* `sinf` (used only inside `hash`) and `sqrtf` (used only inside
  `intersectSphere`) are irrational library functions; they are passed in as
  explicit function parameters `sinQ sq : ℚ → ℚ`, so every definition stays
  computable and every theorem quantifies over them (adding hypotheses such as
  `sq d * sq d = d` where a proof needs the square-root law).
* CUDA `__constant__` broadcast memory is modelled as an explicit
  `BroadcastState` record threaded through the host-side upload function.
* The `curandState` stream is modelled as a list of rationals consumed in
  draw order.
-/

namespace PathTracer

/-- A 3D vector over exact rationals (models `Vec3f_t` / `Point3f_t` / `float3`). -/
structure Vec3 where
  x : ℚ
  y : ℚ
  z : ℚ
  deriving DecidableEq, Repr

namespace Vec3

def add (a b : Vec3) : Vec3 := ⟨a.x + b.x, a.y + b.y, a.z + b.z⟩

def sub (a b : Vec3) : Vec3 := ⟨a.x - b.x, a.y - b.y, a.z - b.z⟩

def smul (a : Vec3) (s : ℚ) : Vec3 := ⟨a.x * s, a.y * s, a.z * s⟩

def sdiv (a : Vec3) (s : ℚ) : Vec3 := ⟨a.x / s, a.y / s, a.z / s⟩

def neg (a : Vec3) : Vec3 := ⟨-a.x, -a.y, -a.z⟩

def dot (a b : Vec3) : ℚ := a.x * b.x + a.y * b.y + a.z * b.z

end Vec3

/-- RGB color over exact rationals (models `Color_t`). -/
structure Color where
  r : ℚ
  g : ℚ
  b : ℚ
  deriving DecidableEq, Repr

namespace Color

/-- The `Color_t(v)` scalar constructor: all three channels set to `v`. -/
def ofScalar (v : ℚ) : Color := ⟨v, v, v⟩

def add (a b : Color) : Color := ⟨a.r + b.r, a.g + b.g, a.b + b.b⟩

def mul (a b : Color) : Color := ⟨a.r * b.r, a.g * b.g, a.b * b.b⟩

def smul (a : Color) (s : ℚ) : Color := ⟨a.r * s, a.g * s, a.b * s⟩

end Color

/-- Modelled from the spec: `lerp` (declared in the missing `Color.cuh`),
"linearly interpolate base color toward rust_color by rust_amount" — the
standard affine blend `a*(1-t) + b*t`. -/
def lerp (a b : Color) (t : ℚ) : Color :=
  (a.smul (1 - t)).add (b.smul t)

/-- Function `hash` from `AgingEffects.cu`: `x = sinf(n) * 43758.5453f; return x - floorf(x)`.
`sinQ` stands for `sinf`. -/
def hash (sinQ : ℚ → ℚ) (n : ℚ) : ℚ :=
  let x := sinQ n * (437585453 / 10000 : ℚ)
  x - ⌊x⌋

/-- Function `noise` from `AgingEffects.cu`.  The floored lattice point is hashed
componentwise; the cubic-smoothed fractional offsets `x, y, z` are computed
exactly as in the source but (as in the source) never used in the returned
value. -/
def noise (sinQ : ℚ → ℚ) (point : Vec3) : ℚ :=
  let p : Vec3 := ⟨(⌊point.x⌋ : ℚ), (⌊point.y⌋ : ℚ), (⌊point.z⌋ : ℚ)⟩
  let x := point.x - p.x
  let y := point.y - p.y
  let z := point.z - p.z
  let p : Vec3 := ⟨hash sinQ p.x, hash sinQ p.y, hash sinQ p.z⟩
  let _ := x * x * (3 - 2 * x)
  let _ := y * y * (3 - 2 * y)
  let _ := z * z * (3 - 2 * z)
  hash sinQ (p.x + p.y * 57 + p.z * 113)

/-- Structure `RustParameters` from `AgingEffects.cuh` (padding field omitted: it is a
memory-alignment artifact with no behavior). -/
structure RustParameters where
  oxidation_level : ℚ
  surface_roughness : ℚ
  pattern_scale : ℚ
  rust_color : Color

/-- Structure `PaintAgingParameters` from `AgingEffects.cuh` (padding omitted). -/
structure PaintAgingParameters where
  peeling_amount : ℚ
  crack_density : ℚ
  weathering : ℚ
  underlay_color : Color

/-- Function `AgingEffects::applyRustEffect` from `AgingEffects.cu`. -/
def applyRustEffect (sinQ : ℚ → ℚ) (base_color : Color) (point : Vec3)
    (params : RustParameters) (_noise_value : ℚ) : Color :=
  let pattern := noise sinQ (point.smul params.pattern_scale)
  let rust_amount := pattern * params.oxidation_level
  let rusted_color := lerp base_color params.rust_color rust_amount
  let roughness_factor := 1 + params.surface_roughness * rust_amount
  rusted_color.smul (1 / roughness_factor)

/-- The peel gate of `applyPaintAging`:
`(noise_value > peel_threshold) ? 1.0f : 0.0f` with
`peel_threshold = 1 - peeling_amount`. -/
def peelFactor (params : PaintAgingParameters) (noise_value : ℚ) : ℚ :=
  let peel_threshold := 1 - params.peeling_amount
  if noise_value > peel_threshold then 1 else 0

/-- Function `AgingEffects::applyPaintAging` from `AgingEffects.cu`. -/
def applyPaintAging (sinQ : ℚ → ℚ) (base_color : Color) (point : Vec3)
    (params : PaintAgingParameters) (noise_value : ℚ) : Color :=
  let crack_pattern := noise sinQ (point.smul (1 + params.crack_density * 10))
  let peel_factor := peelFactor params noise_value
  let aged_color := base_color.smul (1 - params.weathering * (3 / 10))
  let final_color := lerp aged_color params.underlay_color peel_factor
  if crack_pattern < params.crack_density * (2 / 10) then
    final_color.smul (7 / 10)
  else
    final_color

/-- A ray (models `Ray_t` from the missing `Ray.cuh`): origin, direction, and
the validity interval for hit distances (spec §3: "a validity interval for hit
distance").  The primary/secondary tag carries no behavior and is omitted. -/
structure Ray where
  origin : Vec3
  direction : Vec3
  tMin : ℚ
  tMax : ℚ

/-- Modelled from the spec: `Ray_t::isValidDistance` (missing `Ray.cuh`) — a
hit distance is valid when it lies strictly inside the ray's validity interval
(spec §3 invariant: "distance > 0 and within the query's valid interval"). -/
def Ray.isValidDistance (r : Ray) (t : ℚ) : Bool :=
  decide (r.tMin < t) && decide (t < r.tMax)

/-- Modelled from the spec: `Ray_t::at` (missing `Ray.cuh`) — the point at
parameter `t` along the ray, `origin + t * direction`. -/
def Ray.at (r : Ray) (t : ℚ) : Vec3 :=
  r.origin.add (r.direction.smul t)

/-- The RNG stream: models the per-thread `curandState` as the list of
uniform draws it will produce, consumed in order. -/
def RandState : Type := List ℚ

/-- One `curand_uniform` draw: consume the head of the stream (an exhausted
stream yields 1, the supremum of curand's (0,1] range; no theorem depends on
this default). -/
def curandUniform : RandState → ℚ × RandState
  | [] => (1, [])
  | u :: rest => (u, rest)

/-- Geometric part of `Intersection_t` (the `material` pointer is split off so
that `Material`'s operations can take the record without circularity). -/
structure HitRec where
  point : Vec3
  normal : Vec3
  distance : ℚ
  color : Color
  frontFace : Bool
  emission : Color
  hit : Bool

/-- Structure `ScatterRecord_t`: attenuation, continuation ray, sample density and the
Dirac-delta ("is specular") flag. -/
structure ScatterRecord where
  is_specular : Bool
  attenuation : Color
  scattered_ray : Ray
  pdf : ℚ

/-- Modelled from the spec (§4.3): `Material_t` (missing `Material.cuh`) —
polymorphic material behavior reduced to its three operations.  `scatter`
returns `none` when the material elects not to scatter and threads the RNG
stream explicitly. -/
structure Material where
  emitted : Ray → HitRec → Color
  scatter : Ray → HitRec → RandState → Option ScatterRecord × RandState
  scatteringPdf : Ray → HitRec → Ray → ℚ

/-- Structure `Intersection_t`: geometric hit data plus the material that produced it. -/
structure Intersection extends HitRec where
  material : Material

/-- Modelled from the spec: the default-constructed `Intersection_t` (missing
`Intersection.cuh`) after the source's explicit `isect.hit = false` — a
"no hit" record with zeroed geometric fields and an inert material. -/
def noHitRec : Intersection where
  point := ⟨0, 0, 0⟩
  normal := ⟨0, 0, 0⟩
  distance := 0
  color := ⟨0, 0, 0⟩
  frontFace := true
  emission := ⟨0, 0, 0⟩
  hit := false
  material := ⟨fun _ _ => ⟨0, 0, 0⟩, fun _ _ rs => (none, rs), fun _ _ _ => 0⟩

/-- Structure `GPUSphere` (broadcast-memory sphere record): `emission` is the
precomputed emissive radiance written at upload time. -/
structure GPUSphere where
  center : Vec3
  radius : ℚ
  material : Material
  is_emissive : Bool
  emission : Color

/-- Structure `GPUPlane` (broadcast-memory plane record). -/
structure GPUPlane where
  point : Vec3
  normal : Vec3
  material : Material

/-- Modelled from the spec: `Intersection_t::setFaceNormal` (missing
`Intersection.cuh`) — front-face correction (spec glossary): `frontFace` is
whether the outward normal opposes the incoming ray, and the stored normal is
flipped when it does not. -/
def setFaceNormal (ray : Ray) (outward : Vec3) : Bool × Vec3 :=
  let ff := decide (Vec3.dot ray.direction outward < 0)
  (ff, if ff then outward else outward.neg)

/-- Builds the hit record of `intersectSphere` for an accepted root. -/
def sphereHitRecord (ray : Ray) (sphere : GPUSphere) (root : ℚ) :
    Intersection :=
  let pt := ray.at root
  let outward := (pt.sub sphere.center).sdiv sphere.radius
  let fn := setFaceNormal ray outward
  { point := pt
    normal := fn.2
    distance := root
    color := noHitRec.color
    frontFace := fn.1
    emission := if sphere.is_emissive then sphere.emission else noHitRec.emission
    hit := true
    material := sphere.material }

/-- Function `intersectSphere` from the kernel source.  `sq` stands for `sqrtf`; `a` is
fixed at 1 exactly as in the source (valid for normalized ray directions). -/
def intersectSphere (sq : ℚ → ℚ) (ray : Ray) (sphere : GPUSphere) :
    Intersection :=
  let oc := ray.origin.sub sphere.center
  let a : ℚ := 1
  let half_b := Vec3.dot oc ray.direction
  let c := Vec3.dot oc oc - sphere.radius * sphere.radius
  let discriminant := half_b * half_b - a * c
  if discriminant < 0 then noHitRec
  else
    let sqrtd := sq discriminant
    let root := (-half_b - sqrtd) / a
    if ray.isValidDistance root then sphereHitRecord ray sphere root
    else
      let root := (-half_b + sqrtd) / a
      if ray.isValidDistance root then sphereHitRecord ray sphere root
      else noHitRec

/-- Function `intersectPlane` from the kernel source. -/
def intersectPlane (ray : Ray) (plane : GPUPlane) : Intersection :=
  let denom := Vec3.dot plane.normal ray.direction
  if |denom| < 1 / 1000000 then noHitRec
  else
    let t := Vec3.dot (plane.point.sub ray.origin) plane.normal / denom
    if ray.isValidDistance t then
      let fn := setFaceNormal ray plane.normal
      { point := ray.at t
        normal := fn.2
        distance := t
        color := noHitRec.color
        frontFace := fn.1
        emission := noHitRec.emission
        hit := true
        material := plane.material }
    else noHitRec

/-- The constant `FLT_MAX` (the source's `FLOAT_MAX` initial closest distance), exactly
`(2 - 2^-23) * 2^127`. -/
def FLOAT_MAX : ℚ := 340282346638528859811704183484516925440

/-- One step of the nearest-hit scan in `intersectScene`: replace the current
best when the candidate hit is strictly closer than the tracked distance. -/
def scanStep (acc : Intersection × ℚ) (r : Intersection) : Intersection × ℚ :=
  if r.hit = true ∧ r.distance < acc.2 then (r, r.distance) else acc

/-- Function `intersectScene` from the kernel source: scan all spheres, then all
planes, tracking the minimum valid distance starting from `FLOAT_MAX`.  The
broadcast arrays `d_spheres[0..d_num_spheres)` / `d_planes[0..d_num_planes)`
are modelled as the lists `spheres` / `planes`. -/
def intersectScene (sq : ℚ → ℚ) (spheres : List GPUSphere)
    (planes : List GPUPlane) (ray : Ray) : Intersection :=
  let init : Intersection × ℚ := (noHitRec, FLOAT_MAX)
  let afterSpheres := (spheres.map (intersectSphere sq ray)).foldl scanStep init
  let final := (planes.map (intersectPlane ray)).foldl scanStep afterSpheres
  final.1

/-- The loop state of `traceRay`: current ray, accumulated radiance,
path throughput, RNG stream. -/
structure TraceState where
  ray : Ray
  finalColor : Color
  throughput : Color
  rand : RandState

/-- Outcome of one iteration of the bounce loop: `halt` (a `break` or loop
exit, returning the accumulated radiance) or `cont` (fall through to the next
`depth`). -/
inductive StepOut where
  | halt (finalColor : Color)
  | cont (s : TraceState)

/-- One iteration of the bounce loop of `traceRay` at bounce index `depth`,
translated line by line from the source: intersect, add emitted light,
scatter (break on failure), specular shortcut (`continue`, skipping Russian
roulette), importance-sampled throughput update, then — only when
`depth > 3` — Russian roulette. -/
def traceStep (sq : ℚ → ℚ) (spheres : List GPUSphere) (planes : List GPUPlane)
    (depth : ℕ) (s : TraceState) : StepOut :=
  let isect := intersectScene sq spheres planes s.ray
  if isect.hit = true then
    let finalColor := s.finalColor.add
      (s.throughput.mul (isect.material.emitted s.ray isect.toHitRec))
    match isect.material.scatter s.ray isect.toHitRec s.rand with
    | (none, _) => StepOut.halt finalColor
    | (some srec, rand) =>
      if srec.is_specular = true then
        StepOut.cont ⟨srec.scattered_ray, finalColor,
          s.throughput.mul srec.attenuation, rand⟩
      else
        let ray := srec.scattered_ray
        let brdf := srec.attenuation.smul
          (isect.material.scatteringPdf ray isect.toHitRec srec.scattered_ray)
        let throughput := s.throughput.mul (brdf.smul (1 / srec.pdf))
        if depth > 3 then
          let p := max throughput.r (max throughput.g throughput.b)
          let ur := curandUniform rand
          if ur.1 > p then StepOut.halt finalColor
          else StepOut.cont ⟨ray, finalColor, throughput.smul (1 / p), ur.2⟩
        else StepOut.cont ⟨ray, finalColor, throughput, rand⟩
  else StepOut.halt s.finalColor

/-- The bounce loop of `traceRay`: `fuel` iterations remain, `depth` is the
current bounce index. -/
def traceLoop (sq : ℚ → ℚ) (spheres : List GPUSphere)
    (planes : List GPUPlane) : ℕ → ℕ → TraceState → Color
  | 0, _, s => s.finalColor
  | fuel + 1, depth, s =>
    match traceStep sq spheres planes depth s with
    | StepOut.halt c => c
    | StepOut.cont s2 => traceLoop sq spheres planes fuel (depth + 1) s2

/-- Function `traceRay` from the kernel source: radiance starts at 0, throughput at 1,
and the loop runs `max_depth` bounces starting at depth 0. -/
def traceRay (sq : ℚ → ℚ) (spheres : List GPUSphere) (planes : List GPUPlane)
    (ray : Ray) (rand : RandState) (max_depth : ℕ) : Color :=
  traceLoop sq spheres planes max_depth 0 ⟨ray, Color.ofScalar 0,
    Color.ofScalar 1, rand⟩

/-- Outcome of the Russian-roulette-free part of the loop body, distinguishing
the source's two `continue` paths: the specular shortcut (which the source
reaches *before* the Russian-roulette block) and the non-specular fall-through
(which reaches it). -/
inductive CoreOut where
  | halt (finalColor : Color)
  | contSpec (s : TraceState)
  | contDiff (s : TraceState)

/-- Steps 1–5 of the loop body (everything before the Russian-roulette
block), with the two continuation kinds tagged. -/
def coreStep (sq : ℚ → ℚ) (spheres : List GPUSphere) (planes : List GPUPlane)
    (s : TraceState) : CoreOut :=
  let isect := intersectScene sq spheres planes s.ray
  if isect.hit = true then
    let finalColor := s.finalColor.add
      (s.throughput.mul (isect.material.emitted s.ray isect.toHitRec))
    match isect.material.scatter s.ray isect.toHitRec s.rand with
    | (none, _) => CoreOut.halt finalColor
    | (some srec, rand) =>
      if srec.is_specular = true then
        CoreOut.contSpec ⟨srec.scattered_ray, finalColor,
          s.throughput.mul srec.attenuation, rand⟩
      else
        let ray := srec.scattered_ray
        let brdf := srec.attenuation.smul
          (isect.material.scatteringPdf ray isect.toHitRec srec.scattered_ray)
        let throughput := s.throughput.mul (brdf.smul (1 / srec.pdf))
        CoreOut.contDiff ⟨ray, finalColor, throughput, rand⟩
  else CoreOut.halt s.finalColor

/-- The Russian-roulette gate exactly as the source applies it to a
non-specular continuation: `p` is the max throughput component, a uniform
draw above `p` terminates the path, survival divides the throughput by `p`. -/
def rrGate (s : TraceState) : StepOut :=
  let p := max s.throughput.r (max s.throughput.g s.throughput.b)
  let ur := curandUniform s.rand
  if ur.1 > p then StepOut.halt s.finalColor
  else StepOut.cont ⟨s.ray, s.finalColor, s.throughput.smul (1 / p), ur.2⟩

/-- The loop body as the claim (and spec §4.5 step 6 read literally) describes
it: Russian roulette applied at *every* bounce with `depth > 3` that continues
the path — including specular continuations.  Kept for comparison with
`traceStep`. -/
def traceStepClaim (sq : ℚ → ℚ) (spheres : List GPUSphere)
    (planes : List GPUPlane) (depth : ℕ) (s : TraceState) : StepOut :=
  match coreStep sq spheres planes s with
  | CoreOut.halt c => StepOut.halt c
  | CoreOut.contSpec s2 => if depth > 3 then rrGate s2 else StepOut.cont s2
  | CoreOut.contDiff s2 => if depth > 3 then rrGate s2 else StepOut.cont s2

/-- The bounce loop built on `traceStepClaim`. -/
def traceLoopClaim (sq : ℚ → ℚ) (spheres : List GPUSphere)
    (planes : List GPUPlane) : ℕ → ℕ → TraceState → Color
  | 0, _, s => s.finalColor
  | fuel + 1, depth, s =>
    match traceStepClaim sq spheres planes depth s with
    | StepOut.halt c => c
    | StepOut.cont s2 => traceLoopClaim sq spheres planes fuel (depth + 1) s2

/-- Function `traceRay` as the claim describes the Russian-roulette schedule. -/
def traceRayClaim (sq : ℚ → ℚ) (spheres : List GPUSphere)
    (planes : List GPUPlane) (ray : Ray) (rand : RandState)
    (max_depth : ℕ) : Color :=
  traceLoopClaim sq spheres planes max_depth 0 ⟨ray, Color.ofScalar 0,
    Color.ofScalar 1, rand⟩

/-- Structure `GPUCamera`: the broadcast camera record (field of view already in radians). -/
structure GPUCamera where
  origin : Vec3
  forward : Vec3
  right : Vec3
  up : Vec3
  fov : ℚ
  width : ℕ
  height : ℕ

/-- Modelled from the spec: the host-side `Camera_t` (missing `Camera.cuh`) —
position, forward/right/up basis, field of view in degrees, resolution
(spec §6). -/
structure Camera where
  position : Vec3
  forward : Vec3
  right : Vec3
  up : Vec3
  fovDegrees : ℚ
  width : ℕ
  height : ℕ

/-- Rational stand-in for the value of the double constant `M_PI`. -/
def MPI : ℚ := 3141592653589793 / 1000000000000000

/-- The camera conversion performed by `initializeGPUData`: copy the basis and
resolution, convert the field of view from degrees to radians. -/
def toGPUCamera (camera : Camera) : GPUCamera :=
  ⟨camera.position, camera.forward, camera.right, camera.up,
    camera.fovDegrees * MPI / 180, camera.width, camera.height⟩

/-- Modelled from the spec: the `ImplicitObject_t` hierarchy (missing
headers) — a scene object is a sphere or a plane, inspected at upload time
via `isSphere`/`isPlane` (spec §3 "Scene Object (variant: Sphere, Plane)"). -/
inductive ImplicitObject where
  | sphere (center : Vec3) (radius : ℚ) (material : Material)
      (emissive : Bool) (emissionColor : Color) (emissionStrength : ℚ)
  | plane (point : Vec3) (normal : Vec3) (material : Material)

def ImplicitObject.isSphere : ImplicitObject → Bool
  | .sphere .. => true
  | .plane .. => false

def ImplicitObject.isPlane : ImplicitObject → Bool
  | .sphere .. => false
  | .plane .. => true

/-- Structure `Scene_t` snapshot: the implicit-object count and the device pointer
array; `none` models a null `d_implicit_objects`.  The model convention is
that a non-null array holds at least `implicit_object_count` entries (the
C++ loop indexes exactly that many). -/
structure Scene where
  implicit_object_count : ℕ
  d_implicit_objects : Option (List ImplicitObject)

/-- The CUDA `__constant__` broadcast memory published to the kernels:
`d_camera`, `d_spheres`, `d_planes`, `d_num_spheres`, `d_num_planes`. -/
structure BroadcastState where
  camera : GPUCamera
  spheres : List GPUSphere
  planes : List GPUPlane
  num_spheres : ℕ
  num_planes : ℕ

/-- The sphere-flattening loop of `initializeGPUData`: keep the spheres, in
order, precomputing `emission = emissionColor * emissionStrength` for
emissive spheres and zero otherwise. -/
def flattenSpheres (objs : List ImplicitObject) : List GPUSphere :=
  objs.filterMap fun o =>
    match o with
    | .sphere c r m em ec es =>
      some ⟨c, r, m, em, if em then ec.smul es else ⟨0, 0, 0⟩⟩
    | .plane .. => none

/-- The plane-flattening loop of `initializeGPUData`: keep the planes, in
order. -/
def flattenPlanes (objs : List ImplicitObject) : List GPUPlane :=
  objs.filterMap fun o =>
    match o with
    | .sphere .. => none
    | .plane p n m => some ⟨p, n, m⟩

/-- Function `initializeGPUData` from the kernel source, as a transformer of the
broadcast state.  An error result models the C++ `throw` and carries the
broadcast state as it stood when the exception left the function.  The
sphere/plane array copies are guarded by `length ≤ 16`: `cudaMemcpyToSymbol`
refuses a copy larger than the 16-element `__constant__` symbol, and the
source ignores that status — the counts, however, are always published. -/
def initializeGPUData (camera : Camera) (d_scene : Option Scene)
    (st : BroadcastState) : Except (String × BroadcastState) BroadcastState :=
  match d_scene with
  | none => Except.error ("Scene pointer is null in initializeGPUData", st)
  | some h_scene =>
    let st1 : BroadcastState := { st with camera := toGPUCamera camera }
    match h_scene.d_implicit_objects with
    | none => Except.ok { st1 with num_spheres := 0, num_planes := 0 }
    | some objArray =>
      if h_scene.implicit_object_count = 0 then
        Except.ok { st1 with num_spheres := 0, num_planes := 0 }
      else
        let objs := objArray.take h_scene.implicit_object_count
        let h_spheres := flattenSpheres objs
        let h_planes := flattenPlanes objs
        let st2 : BroadcastState :=
          { st1 with
            num_spheres := h_spheres.length
            spheres :=
              if 0 < h_spheres.length ∧ h_spheres.length ≤ 16 then h_spheres
              else st1.spheres }
        Except.ok
          { st2 with
            num_planes := h_planes.length
            planes :=
              if 0 < h_planes.length ∧ h_planes.length ≤ 16 then h_planes
              else st2.planes }

/-- RGBA cell of the accumulation buffer (models `float4`). -/
structure Float4 where
  x : ℚ
  y : ℚ
  z : ℚ
  w : ℚ
  deriving DecidableEq, Repr

/-- The accumulation tail of `renderKernel` (lines 310–318): blend the freshly
traced `pixel_color` with the previous cell contents when `frame_count > 0`,
then store with alpha 1. -/
def accumulatePixel (pixel_color : Color) (prev : Float4) (frame_count : ℕ) :
    Float4 :=
  let pc :=
    if frame_count > 0 then
      let t : ℚ := 1 / ((frame_count : ℚ) + 1)
      (pixel_color.smul t).add ((Color.mk prev.x prev.y prev.z).smul (1 - t))
    else
      pixel_color
  ⟨pc.r, pc.g, pc.b, 1⟩

/-- The vector `oc`, the ray origin relative to the sphere center, as computed by
`intersectSphere`. -/
def sphereOC (ray : Ray) (sphere : GPUSphere) : Vec3 :=
  ray.origin.sub sphere.center

/-- The coefficient `half_b` of the sphere quadratic, as computed by `intersectSphere`. -/
def sphereHalfB (ray : Ray) (sphere : GPUSphere) : ℚ :=
  Vec3.dot (sphereOC ray sphere) ray.direction

/-- The coefficient `c` of the sphere quadratic, as computed by `intersectSphere`. -/
def sphereCC (ray : Ray) (sphere : GPUSphere) : ℚ :=
  Vec3.dot (sphereOC ray sphere) (sphereOC ray sphere) -
    sphere.radius * sphere.radius

/-- The (quarter) discriminant `half_b² - a·c` with `a = 1`, as computed by
`intersectSphere`. -/
def sphereDisc (ray : Ray) (sphere : GPUSphere) : ℚ :=
  sphereHalfB ray sphere * sphereHalfB ray sphere - sphereCC ray sphere

/-- The denominator `denom`, as computed by `intersectPlane`. -/
def planeDenom (ray : Ray) (plane : GPUPlane) : ℚ :=
  Vec3.dot plane.normal ray.direction

/-- The linear intersection distance `t`, as computed by `intersectPlane`. -/
def planeT (ray : Ray) (plane : GPUPlane) : ℚ :=
  Vec3.dot (plane.point.sub ray.origin) plane.normal / planeDenom ray plane

/-- The hit record `intersectPlane` builds for an accepted distance. -/
def planeHitRecord (ray : Ray) (plane : GPUPlane) (t : ℚ) : Intersection :=
  let fn := setFaceNormal ray plane.normal
  { point := ray.at t
    normal := fn.2
    distance := t
    color := noHitRec.color
    frontFace := fn.1
    emission := noHitRec.emission
    hit := true
    material := plane.material }

/-- The per-ray intersection records in scan order: all spheres, then all
planes (the scan order of `intersectScene`). -/
def sceneCandidates (sq : ℚ → ℚ) (spheres : List GPUSphere)
    (planes : List GPUPlane) (ray : Ray) : List Intersection :=
  spheres.map (intersectSphere sq ray) ++ planes.map (intersectPlane ray)

/-- Predicate: `x` is a hit strictly below the running threshold `d` with minimal
distance among all hits of `recs`. -/
def bestHitPred (d : ℚ) (recs : List Intersection) (x : Intersection) : Bool :=
  x.hit && decide (x.distance < d) &&
    recs.all (fun s => !s.hit || decide (x.distance ≤ s.distance))

/-- The claim-side nearest-hit predicate, following the spec's words: a hit
whose distance is smallest among all hits (no threshold). -/
def claimBest (recs : List Intersection) (x : Intersection) : Bool :=
  x.hit && recs.all (fun s => !s.hit || decide (x.distance ≤ s.distance))

/-- The nearest-hit record the spec describes: the first record in scan order
whose distance is minimal among all hits, or the no-hit record when nothing
hits ("first object encountered in scan order wins exact ties"). -/
def claimClosest (recs : List Intersection) : Intersection :=
  match recs.find? (claimBest recs) with
  | some c => c
  | none => noHitRec

/-- A concrete host camera for witnesses. -/
def camera0 : Camera :=
  ⟨⟨0, 0, 0⟩, ⟨0, 0, 1⟩, ⟨1, 0, 0⟩, ⟨0, 1, 0⟩, 90, 800, 600⟩

/-- A concrete previously published broadcast state for witnesses. -/
def state0 : BroadcastState :=
  ⟨⟨⟨0, 0, 0⟩, ⟨0, 0, 1⟩, ⟨1, 0, 0⟩, ⟨0, 1, 0⟩, 1, 800, 600⟩, [], [], 3, 4⟩

/-- A 17-sphere scene — one more than the broadcast capacity. -/
def seventeenSpheres : List ImplicitObject :=
  List.replicate 17
    (ImplicitObject.sphere ⟨0, 0, 0⟩ 1 noHitRec.material false ⟨0, 0, 0⟩ 0)

/-- A purely specular mirror material: emits `(1,1,1)`, always scatters the
incoming ray back out unchanged with attenuation `(1/2,1/2,1/2)` and the
specular flag set. -/
def mirrorMaterial : Material :=
  ⟨fun _ _ => ⟨1, 1, 1⟩,
   fun ray _ rand => (some ⟨true, ⟨1/2, 1/2, 1/2⟩, ray, 1⟩, rand),
   fun _ _ _ => 0⟩

/-- The unit mirror sphere at the origin. -/
def mirrorSphere : GPUSphere := ⟨⟨0, 0, 0⟩, 1, mirrorMaterial, false, ⟨0, 0, 0⟩⟩

/-- The ray from `(0,0,-3)` along `(0,0,1)`, which hits `mirrorSphere` at
distance 2 on every bounce. -/
def mirrorRay : Ray := ⟨⟨0, 0, -3⟩, ⟨0, 0, 1⟩, 1/1000, 1000⟩

end PathTracer

namespace PathTracer

lemma intersectSphere_eq (sq : ℚ → ℚ) (ray : Ray) (sphere : GPUSphere) :
    intersectSphere sq ray sphere =
      (if sphereDisc ray sphere < 0 then noHitRec
       else if ray.isValidDistance
           (-sphereHalfB ray sphere - sq (sphereDisc ray sphere)) then
         sphereHitRecord ray sphere
           (-sphereHalfB ray sphere - sq (sphereDisc ray sphere))
       else if ray.isValidDistance
           (-sphereHalfB ray sphere + sq (sphereDisc ray sphere)) then
         sphereHitRecord ray sphere
           (-sphereHalfB ray sphere + sq (sphereDisc ray sphere))
       else noHitRec) := by
  simp only [intersectSphere, sphereDisc, sphereHalfB, sphereCC, sphereOC,
    one_mul, div_one]

/-- Expansion of the squared distance from the sphere center to the point at
parameter `root`, valid for a normalized ray direction. -/
lemma at_sub_center_sq (ray : Ray) (sphere : GPUSphere) (root : ℚ)
    (hdir : Vec3.dot ray.direction ray.direction = 1) :
    Vec3.dot ((ray.at root).sub sphere.center) ((ray.at root).sub sphere.center)
      = Vec3.dot (sphereOC ray sphere) (sphereOC ray sphere)
        + 2 * root * sphereHalfB ray sphere + root * root := by
  obtain ⟨⟨ox, oy, oz⟩, ⟨dx, dy, dz⟩, tmin, tmax⟩ := ray
  obtain ⟨⟨cx, cy, cz⟩, rad, mat, em, ec⟩ := sphere
  simp only [Vec3.dot, Vec3.sub, Vec3.add, Vec3.smul, Ray.at, sphereOC,
    sphereHalfB] at hdir ⊢
  linear_combination root * root * hdir

/-- Both quadratic roots `-half_b ∓ sqrtd` put the ray point exactly on the
sphere surface (for a normalized direction and an exact square root). -/
lemma root_on_sphere (ray : Ray) (sphere : GPUSphere) (root : ℚ)
    (hdir : Vec3.dot ray.direction ray.direction = 1)
    (sqrtd : ℚ) (hsq : sqrtd * sqrtd = sphereDisc ray sphere)
    (hroot : root = -sphereHalfB ray sphere - sqrtd ∨
      root = -sphereHalfB ray sphere + sqrtd) :
    Vec3.dot ((ray.at root).sub sphere.center) ((ray.at root).sub sphere.center)
      = sphere.radius * sphere.radius := by
  rw [at_sub_center_sq ray sphere root hdir]
  have hcc : Vec3.dot (sphereOC ray sphere) (sphereOC ray sphere) =
      sphereCC ray sphere + sphere.radius * sphere.radius := by
    simp [sphereCC]
  rw [hcc]
  have hdisc : sphereCC ray sphere =
      sphereHalfB ray sphere * sphereHalfB ray sphere - sphereDisc ray sphere := by
    unfold sphereDisc; ring
  rcases hroot with h | h <;> rw [h, hdisc, ← hsq] <;> ring

lemma dot_comm (a b : Vec3) : Vec3.dot a b = Vec3.dot b a := by
  simp only [Vec3.dot]; ring

/-- The front-face-corrected normal opposes the incoming ray direction. -/
lemma setFaceNormal_opposes (ray : Ray) (outward : Vec3) :
    Vec3.dot (setFaceNormal ray outward).2 ray.direction ≤ 0 := by
  simp only [setFaceNormal]
  split
  · next h =>
    rw [decide_eq_true_iff] at h
    rw [dot_comm]
    exact le_of_lt h
  · next h =>
    rw [decide_eq_true_iff, not_lt] at h
    have hneg : Vec3.dot outward.neg ray.direction =
        -(Vec3.dot ray.direction outward) := by
      simp only [Vec3.dot, Vec3.neg]; ring
    rw [hneg]
    linarith

/-- A sphere intersection that reports a hit has a valid distance. -/
lemma intersectSphere_hit_valid (sq : ℚ → ℚ) (ray : Ray) (sphere : GPUSphere)
    (h : (intersectSphere sq ray sphere).hit = true) :
    ray.isValidDistance (intersectSphere sq ray sphere).distance = true := by
  rw [intersectSphere_eq] at h ⊢
  split_ifs at h ⊢ with h1 h2 h3
  · exact absurd h (by simp [noHitRec])
  · simpa [sphereHitRecord] using h2
  · simpa [sphereHitRecord] using h3
  · exact absurd h (by simp [noHitRec])

lemma intersectPlane_eq (ray : Ray) (plane : GPUPlane) :
    intersectPlane ray plane =
      (if |planeDenom ray plane| < 1 / 1000000 then noHitRec
       else if ray.isValidDistance (planeT ray plane) then
         planeHitRecord ray plane (planeT ray plane)
       else noHitRec) := by
  simp only [intersectPlane, planeDenom, planeT, planeHitRecord]

/-- A plane intersection that reports a hit has a valid distance. -/
lemma intersectPlane_hit_valid (ray : Ray) (plane : GPUPlane)
    (h : (intersectPlane ray plane).hit = true) :
    ray.isValidDistance (intersectPlane ray plane).distance = true := by
  rw [intersectPlane_eq] at h ⊢
  split_ifs at h ⊢ with h1 h2
  · exact absurd h (by simp [noHitRec])
  · simpa [planeHitRecord] using h2
  · exact absurd h (by simp [noHitRec])

/-- Claim C5: The sphere intersection test (for a normalized ray direction and
an exact square root of the discriminant): no hit when the discriminant is
negative; otherwise the smaller root `-half_b - sqrtd` is preferred when it is
a valid distance, the larger root `-half_b + sqrtd` is the fallback, and both
invalid means no hit.  Every reported hit lies exactly on the sphere surface
at `ray.at distance`, has a valid distance, a front-face-corrected normal
opposing the ray, the sphere's material, and — for an emissive sphere — the
precomputed emission. -/
theorem intersectSphere_spec (sq : ℚ → ℚ) (ray : Ray) (sphere : GPUSphere)
    (hdir : Vec3.dot ray.direction ray.direction = 1)
    (hsq0 : 0 ≤ sphereDisc ray sphere → 0 ≤ sq (sphereDisc ray sphere))
    (hsq : 0 ≤ sphereDisc ray sphere →
      sq (sphereDisc ray sphere) * sq (sphereDisc ray sphere) =
        sphereDisc ray sphere) :
    (sphereDisc ray sphere < 0 → intersectSphere sq ray sphere = noHitRec) ∧
    (0 ≤ sphereDisc ray sphere →
      -sphereHalfB ray sphere - sq (sphereDisc ray sphere) ≤
        -sphereHalfB ray sphere + sq (sphereDisc ray sphere) ∧
      (ray.isValidDistance
          (-sphereHalfB ray sphere - sq (sphereDisc ray sphere)) = true →
        intersectSphere sq ray sphere =
          sphereHitRecord ray sphere
            (-sphereHalfB ray sphere - sq (sphereDisc ray sphere))) ∧
      (ray.isValidDistance
          (-sphereHalfB ray sphere - sq (sphereDisc ray sphere)) = false →
        ray.isValidDistance
          (-sphereHalfB ray sphere + sq (sphereDisc ray sphere)) = true →
        intersectSphere sq ray sphere =
          sphereHitRecord ray sphere
            (-sphereHalfB ray sphere + sq (sphereDisc ray sphere))) ∧
      (ray.isValidDistance
          (-sphereHalfB ray sphere - sq (sphereDisc ray sphere)) = false →
        ray.isValidDistance
          (-sphereHalfB ray sphere + sq (sphereDisc ray sphere)) = false →
        intersectSphere sq ray sphere = noHitRec)) ∧
    ((intersectSphere sq ray sphere).hit = true →
      (intersectSphere sq ray sphere).point =
        ray.at (intersectSphere sq ray sphere).distance ∧
      Vec3.dot ((intersectSphere sq ray sphere).point.sub sphere.center)
          ((intersectSphere sq ray sphere).point.sub sphere.center) =
        sphere.radius * sphere.radius ∧
      ray.isValidDistance (intersectSphere sq ray sphere).distance = true ∧
      Vec3.dot (intersectSphere sq ray sphere).normal ray.direction ≤ 0 ∧
      (intersectSphere sq ray sphere).material = sphere.material ∧
      (intersectSphere sq ray sphere).emission =
        (if sphere.is_emissive then sphere.emission else ⟨0, 0, 0⟩)) := by
  have hcases : intersectSphere sq ray sphere = noHitRec ∨
      (0 ≤ sphereDisc ray sphere ∧ ∃ root,
        (root = -sphereHalfB ray sphere - sq (sphereDisc ray sphere) ∨
         root = -sphereHalfB ray sphere + sq (sphereDisc ray sphere)) ∧
        intersectSphere sq ray sphere = sphereHitRecord ray sphere root) := by
    rw [intersectSphere_eq]
    split_ifs with h1 h2 h3
    · exact Or.inl rfl
    · exact Or.inr ⟨not_lt.mp h1, _, Or.inl rfl, rfl⟩
    · exact Or.inr ⟨not_lt.mp h1, _, Or.inr rfl, rfl⟩
    · exact Or.inl rfl
  refine ⟨fun hneg => ?_, fun hnn => ?_, fun hhit => ?_⟩
  · rw [intersectSphere_eq, if_pos hneg]
  · have hs0 := hsq0 hnn
    refine ⟨by linarith, fun hv1 => ?_, fun hv1 hv2 => ?_, fun hv1 hv2 => ?_⟩
    · rw [intersectSphere_eq, if_neg (not_lt.mpr hnn), if_pos hv1]
    · rw [intersectSphere_eq, if_neg (not_lt.mpr hnn)]
      simp only [hv1, Bool.false_eq_true, if_false, hv2, if_true]
    · rw [intersectSphere_eq, if_neg (not_lt.mpr hnn)]
      simp only [hv1, hv2, Bool.false_eq_true, if_false]
  · rcases hcases with hres | ⟨hnn, root, hroot, hres⟩
    · rw [hres] at hhit
      exact absurd hhit (by simp [noHitRec])
    · have hvalid := intersectSphere_hit_valid sq ray sphere hhit
      rw [hres] at hvalid ⊢
      refine ⟨rfl, ?_, hvalid, ?_, rfl, rfl⟩
      · have hpt : (sphereHitRecord ray sphere root).point = ray.at root := rfl
        rw [hpt]
        exact root_on_sphere ray sphere root hdir _ (hsq hnn) hroot
      · exact setFaceNormal_opposes ray _

/-- Witness for C5: the ray from `(0,0,-3)` along `(0,0,1)` against the unit
sphere at the origin (discriminant 1, exact square root 1) hits at the smaller
root, distance 2. -/
theorem intersectSphere_spec_witness :
    intersectSphere (fun _ => 1)
        ⟨⟨0, 0, -3⟩, ⟨0, 0, 1⟩, 1/1000, 1000⟩
        ⟨⟨0, 0, 0⟩, 1, noHitRec.material, false, ⟨0, 0, 0⟩⟩ =
      sphereHitRecord ⟨⟨0, 0, -3⟩, ⟨0, 0, 1⟩, 1/1000, 1000⟩
        ⟨⟨0, 0, 0⟩, 1, noHitRec.material, false, ⟨0, 0, 0⟩⟩ 2 := by
  have h := intersectSphere_spec (fun _ => 1)
    ⟨⟨0, 0, -3⟩, ⟨0, 0, 1⟩, 1/1000, 1000⟩
    ⟨⟨0, 0, 0⟩, 1, noHitRec.material, false, ⟨0, 0, 0⟩⟩
    (by norm_num [Vec3.dot])
    (fun _ => by norm_num)
    (fun _ => by norm_num [sphereDisc, sphereHalfB, sphereCC, sphereOC,
      Vec3.dot, Vec3.sub])
  have h2 := (h.2.1 (by norm_num [sphereDisc, sphereHalfB, sphereCC, sphereOC,
    Vec3.dot, Vec3.sub])).2.1
  have h3 := h2 (by norm_num [Ray.isValidDistance, sphereDisc, sphereHalfB,
    sphereCC, sphereOC, Vec3.dot, Vec3.sub])
  rw [h3]
  norm_num [sphereDisc, sphereHalfB, sphereCC, sphereOC, Vec3.dot, Vec3.sub]

lemma isValidDistance_lt (ray : Ray) (t : ℚ)
    (h : ray.isValidDistance t = true) : t < ray.tMax := by
  simp only [Ray.isValidDistance, Bool.and_eq_true, decide_eq_true_eq] at h
  exact h.2

lemma sceneCandidates_hit_valid (sq : ℚ → ℚ) (spheres : List GPUSphere)
    (planes : List GPUPlane) (ray : Ray) :
    ∀ x ∈ sceneCandidates sq spheres planes ray, x.hit = true →
      ray.isValidDistance x.distance = true := by
  intro x hx hhit
  rcases List.mem_append.mp hx with h | h
  · obtain ⟨s, _, rfl⟩ := List.mem_map.mp h
    exact intersectSphere_hit_valid sq ray s hhit
  · obtain ⟨p, _, rfl⟩ := List.mem_map.mp h
    exact intersectPlane_hit_valid ray p hhit

lemma bestHitPred_eq_true_iff (d : ℚ) (recs : List Intersection)
    (x : Intersection) :
    bestHitPred d recs x = true ↔
      x.hit = true ∧ x.distance < d ∧
        ∀ s ∈ recs, s.hit = true → x.distance ≤ s.distance := by
  simp only [bestHitPred, Bool.and_eq_true, decide_eq_true_eq,
    List.all_eq_true, Bool.or_eq_true, Bool.not_eq_true', and_assoc]
  constructor
  · rintro ⟨h1, h2, h3⟩
    refine ⟨h1, h2, fun s hs hsh => ?_⟩
    rcases h3 s hs with h | h
    · rw [hsh] at h; cases h
    · exact h
  · rintro ⟨h1, h2, h3⟩
    refine ⟨h1, h2, fun s hs => ?_⟩
    by_cases hsh : s.hit = true
    · exact Or.inr (h3 s hs hsh)
    · exact Or.inl (Bool.not_eq_true _ ▸ hsh)

lemma claimBest_eq_true_iff (recs : List Intersection) (x : Intersection) :
    claimBest recs x = true ↔
      x.hit = true ∧ ∀ s ∈ recs, s.hit = true → x.distance ≤ s.distance := by
  simp only [claimBest, Bool.and_eq_true, decide_eq_true_eq,
    List.all_eq_true, Bool.or_eq_true, Bool.not_eq_true']
  constructor
  · rintro ⟨h1, h3⟩
    refine ⟨h1, fun s hs hsh => ?_⟩
    rcases h3 s hs with h | h
    · rw [hsh] at h; cases h
    · exact h
  · rintro ⟨h1, h3⟩
    refine ⟨h1, fun s hs => ?_⟩
    by_cases hsh : s.hit = true
    · exact Or.inr (h3 s hs hsh)
    · exact Or.inl (Bool.not_eq_true _ ▸ hsh)

lemma find?_congrOn {α : Type} (p q : α → Bool) (l : List α)
    (h : ∀ x ∈ l, p x = q x) : l.find? p = l.find? q := by
  induction l with
  | nil => rfl
  | cons a l ih =>
    have ha := h a (List.mem_cons_self a l)
    by_cases hq : q a = true
    · rw [List.find?_cons_of_pos _ (ha ▸ hq), List.find?_cons_of_pos _ hq]
    · rw [List.find?_cons_of_neg, List.find?_cons_of_neg]
      · exact ih fun x hx => h x (List.mem_cons_of_mem a hx)
      · exact hq
      · rw [ha]; exact hq

/-- Among the records of a list containing at least one hit there is a hit
with minimal distance. -/
lemma exists_minimal_hit (recs : List Intersection)
    (hex : ∃ r ∈ recs, r.hit = true) :
    ∃ x ∈ recs, x.hit = true ∧
      ∀ s ∈ recs, s.hit = true → x.distance ≤ s.distance := by
  induction recs with
  | nil => obtain ⟨r, hr, _⟩ := hex; cases hr
  | cons a l ih =>
    by_cases hl : ∃ r ∈ l, r.hit = true
    · obtain ⟨x, hx, hxh, hxmin⟩ := ih hl
      by_cases ha : a.hit = true ∧ a.distance ≤ x.distance
      · refine ⟨a, List.mem_cons_self a l, ha.1, fun s hs hsh => ?_⟩
        rcases List.mem_cons.mp hs with rfl | hs'
        · exact le_refl _
        · exact le_trans ha.2 (hxmin s hs' hsh)
      · refine ⟨x, List.mem_cons_of_mem a hx, hxh, fun s hs hsh => ?_⟩
        rcases List.mem_cons.mp hs with rfl | hs'
        · rcases not_and_or.mp ha with h | h
          · exact absurd hsh h
          · exact le_of_lt (not_le.mp h)
        · exact hxmin s hs' hsh
    · obtain ⟨r, hr, hrh⟩ := hex
      rcases List.mem_cons.mp hr with rfl | hr'
      · refine ⟨r, List.mem_cons_self r l, hrh, fun s hs hsh => ?_⟩
        rcases List.mem_cons.mp hs with rfl | hs'
        · exact le_refl _
        · exact absurd ⟨s, hs', hsh⟩ hl
      · exact absurd ⟨r, hr', hrh⟩ hl

/-- The nearest-hit fold of `intersectScene` returns the first record (in
scan order) that is a hit strictly below the threshold with minimal distance
among all hits, or leaves the accumulator untouched. -/
lemma foldl_scanStep_char (recs : List Intersection) (b : Intersection)
    (d : ℚ) :
    recs.foldl scanStep (b, d) =
      (match recs.find? (bestHitPred d recs) with
       | some c => (c, c.distance)
       | none => (b, d)) := by
  induction recs generalizing b d with
  | nil => rfl
  | cons r rs ih =>
    rw [List.foldl_cons]
    by_cases hr : r.hit = true ∧ r.distance < d
    · have hstep : scanStep (b, d) r = (r, r.distance) := by
        simp only [scanStep]; rw [if_pos hr]
      rw [hstep]
      by_cases hmin : ∀ s ∈ rs, s.hit = true → r.distance ≤ s.distance
      · have hpred : bestHitPred d (r :: rs) r = true := by
          rw [bestHitPred_eq_true_iff]
          refine ⟨hr.1, hr.2, fun s hs hsh => ?_⟩
          rcases List.mem_cons.mp hs with rfl | hs'
          · exact le_refl _
          · exact hmin s hs' hsh
        rw [List.find?_cons_of_pos _ hpred, ih]
        have hnone : rs.find? (bestHitPred r.distance rs) = none := by
          rw [List.find?_eq_none]
          intro x hx hxp
          obtain ⟨hxh, hxd, _⟩ := (bestHitPred_eq_true_iff _ _ _).mp hxp
          exact absurd (hmin x hx hxh) (not_le.mpr hxd)
        rw [hnone]
      · push_neg at hmin
        obtain ⟨s0, hs0m, hs0h, hs0d⟩ := hmin
        have hrfail : ¬bestHitPred d (r :: rs) r = true := by
          rw [bestHitPred_eq_true_iff]
          rintro ⟨_, _, hall⟩
          exact absurd (hall s0 (List.mem_cons_of_mem r hs0m) hs0h)
            (not_le.mpr hs0d)
        rw [List.find?_cons_of_neg _ hrfail, ih]
        have hcongr : ∀ x ∈ rs,
            bestHitPred r.distance rs x = bestHitPred d (r :: rs) x := by
          intro x hx
          rw [Bool.eq_iff_iff, bestHitPred_eq_true_iff, bestHitPred_eq_true_iff]
          constructor
          · rintro ⟨hxh, hxd, hall⟩
            refine ⟨hxh, lt_trans hxd hr.2, fun s hs hsh => ?_⟩
            rcases List.mem_cons.mp hs with rfl | hs'
            · exact le_of_lt hxd
            · exact hall s hs' hsh
          · rintro ⟨hxh, _, hall⟩
            exact ⟨hxh, lt_of_le_of_lt (hall s0 (List.mem_cons_of_mem r hs0m)
              hs0h) hs0d, fun s hs hsh => hall s (List.mem_cons_of_mem r hs)
                hsh⟩
        rw [← find?_congrOn _ _ rs hcongr]
        obtain ⟨m, hmm, hmh, hmmin⟩ :=
          exists_minimal_hit rs ⟨s0, hs0m, hs0h⟩
        have hmp : bestHitPred r.distance rs m = true :=
          (bestHitPred_eq_true_iff _ _ _).mpr
            ⟨hmh, lt_of_le_of_lt (hmmin s0 hs0m hs0h) hs0d, hmmin⟩
        rcases hfind : rs.find? (bestHitPred r.distance rs) with _ | c
        · exact absurd hmp (List.find?_eq_none.mp hfind m hmm)
        · simp only [hfind]
    · have hstep : scanStep (b, d) r = (b, d) := by
        simp only [scanStep]; rw [if_neg hr]
      rw [hstep]
      have hrfail : ¬bestHitPred d (r :: rs) r = true := by
        rw [bestHitPred_eq_true_iff]
        rintro ⟨h1, h2, _⟩
        exact hr ⟨h1, h2⟩
      rw [List.find?_cons_of_neg _ hrfail, ih]
      have hcongr : ∀ x ∈ rs,
          bestHitPred d rs x = bestHitPred d (r :: rs) x := by
        intro x hx
        rw [Bool.eq_iff_iff, bestHitPred_eq_true_iff, bestHitPred_eq_true_iff]
        constructor
        · rintro ⟨hxh, hxd, hall⟩
          refine ⟨hxh, hxd, fun s hs hsh => ?_⟩
          rcases List.mem_cons.mp hs with rfl | hs'
          · by_cases hcon : s.distance < d
            · exact absurd ⟨hsh, hcon⟩ hr
            · exact le_of_lt (lt_of_lt_of_le hxd (not_lt.mp hcon))
          · exact hall s hs' hsh
        · rintro ⟨hxh, hxd, hall⟩
          exact ⟨hxh, hxd, fun s hs hsh =>
            hall s (List.mem_cons_of_mem r hs) hsh⟩
      rw [find?_congrOn _ _ rs hcongr]

/-- Claim C6: For every ray (with a validity interval inside float range), the
scene-wide query scans all spheres then all planes and returns the record with
the smallest valid distance — the first record in scan order among those
attaining the minimum (strictly-less comparison, so the first object wins
exact ties) — or the no-hit record (`hit = false`) when no object qualifies. -/
theorem intersectScene_spec (sq : ℚ → ℚ) (spheres : List GPUSphere)
    (planes : List GPUPlane) (ray : Ray) (hmax : ray.tMax ≤ FLOAT_MAX) :
    intersectScene sq spheres planes ray =
      claimClosest (sceneCandidates sq spheres planes ray) ∧
    ((intersectScene sq spheres planes ray).hit = true ↔
      ∃ x ∈ sceneCandidates sq spheres planes ray, x.hit = true) := by
  have hfold : intersectScene sq spheres planes ray =
      ((sceneCandidates sq spheres planes ray).foldl scanStep
        (noHitRec, FLOAT_MAX)).1 := by
    simp only [intersectScene, sceneCandidates, List.foldl_append]
  have hlt : ∀ x ∈ sceneCandidates sq spheres planes ray, x.hit = true →
      x.distance < FLOAT_MAX := by
    intro x hx hh
    exact lt_of_lt_of_le
      (isValidDistance_lt ray x.distance
        (sceneCandidates_hit_valid sq spheres planes ray x hx hh)) hmax
  have hcongr : ∀ x ∈ sceneCandidates sq spheres planes ray,
      bestHitPred FLOAT_MAX (sceneCandidates sq spheres planes ray) x =
        claimBest (sceneCandidates sq spheres planes ray) x := by
    intro x hx
    rw [Bool.eq_iff_iff, bestHitPred_eq_true_iff, claimBest_eq_true_iff]
    constructor
    · rintro ⟨h1, _, h3⟩; exact ⟨h1, h3⟩
    · rintro ⟨h1, h3⟩; exact ⟨h1, hlt x hx h1, h3⟩
  rw [hfold, foldl_scanStep_char,
    find?_congrOn _ _ _ hcongr]
  cases hfind : (sceneCandidates sq spheres planes ray).find?
      (claimBest (sceneCandidates sq spheres planes ray)) with
  | none =>
    refine ⟨by simp [claimClosest, hfind], ?_⟩
    constructor
    · intro h; exact absurd h (by simp [noHitRec])
    · rintro ⟨x, hx, hxh⟩
      obtain ⟨m, hm, hmh, hmmin⟩ := exists_minimal_hit _ ⟨x, hx, hxh⟩
      have hmp : claimBest (sceneCandidates sq spheres planes ray) m = true :=
        (claimBest_eq_true_iff _ _).mpr ⟨hmh, hmmin⟩
      exact absurd hmp (List.find?_eq_none.mp hfind m hm)
  | some c =>
    have hc := (claimBest_eq_true_iff _ _).mp (List.find?_some hfind)
    have hcm := List.mem_of_find?_eq_some hfind
    refine ⟨by simp [claimClosest, hfind], ?_⟩
    constructor
    · intro _; exact ⟨c, hcm, hc.1⟩
    · intro _; exact hc.1

/-- Witness for C6: with one sphere and one plane both hit by the ray from
`(0,0,-3)` along `(0,0,1)` (sphere at distance 2, plane at distance 1), the
scene query returns the plane record — the smallest valid distance — and
reports a hit. -/
theorem intersectScene_spec_witness :
    intersectScene (fun _ => 1)
        [⟨⟨0, 0, 0⟩, 1, noHitRec.material, false, ⟨0, 0, 0⟩⟩]
        [⟨⟨0, 0, -2⟩, ⟨0, 0, 1⟩, noHitRec.material⟩]
        ⟨⟨0, 0, -3⟩, ⟨0, 0, 1⟩, 1/1000, 1000⟩ =
      claimClosest (sceneCandidates (fun _ => 1)
        [⟨⟨0, 0, 0⟩, 1, noHitRec.material, false, ⟨0, 0, 0⟩⟩]
        [⟨⟨0, 0, -2⟩, ⟨0, 0, 1⟩, noHitRec.material⟩]
        ⟨⟨0, 0, -3⟩, ⟨0, 0, 1⟩, 1/1000, 1000⟩) ∧
    ((intersectScene (fun _ => 1)
        [⟨⟨0, 0, 0⟩, 1, noHitRec.material, false, ⟨0, 0, 0⟩⟩]
        [⟨⟨0, 0, -2⟩, ⟨0, 0, 1⟩, noHitRec.material⟩]
        ⟨⟨0, 0, -3⟩, ⟨0, 0, 1⟩, 1/1000, 1000⟩).hit = true ↔
      ∃ x ∈ sceneCandidates (fun _ => 1)
        [⟨⟨0, 0, 0⟩, 1, noHitRec.material, false, ⟨0, 0, 0⟩⟩]
        [⟨⟨0, 0, -2⟩, ⟨0, 0, 1⟩, noHitRec.material⟩]
        ⟨⟨0, 0, -3⟩, ⟨0, 0, 1⟩, 1/1000, 1000⟩, x.hit = true) :=
  intersectScene_spec (fun _ => 1)
    [⟨⟨0, 0, 0⟩, 1, noHitRec.material, false, ⟨0, 0, 0⟩⟩]
    [⟨⟨0, 0, -2⟩, ⟨0, 0, 1⟩, noHitRec.material⟩]
    ⟨⟨0, 0, -3⟩, ⟨0, 0, 1⟩, 1/1000, 1000⟩
    (by norm_num [FLOAT_MAX])

/-- Claim C2: `initializeGPUData` with a null scene handle throws (error result)
leaving every previously published broadcast field — camera, object arrays,
counts — exactly as it was; with a non-null handle whose object count is zero
or whose object-array pointer is null it succeeds, publishing zero sphere and
zero plane counts. -/
theorem initializeGPUData_null_vs_empty (camera : Camera)
    (st : BroadcastState) :
    initializeGPUData camera none st =
      Except.error ("Scene pointer is null in initializeGPUData", st) ∧
    (∀ sc : Scene,
      sc.implicit_object_count = 0 ∨ sc.d_implicit_objects = none →
      initializeGPUData camera (some sc) st =
        Except.ok { st with
          camera := toGPUCamera camera
          num_spheres := 0
          num_planes := 0 }) := by
  refine ⟨rfl, fun sc h => ?_⟩
  obtain ⟨count, objs⟩ := sc
  rcases objs with _ | objArray
  · rfl
  · rcases h with h | h
    · simp only at h
      subst h
      rfl
    · simp at h

/-- Witness for C2 at a concrete camera, broadcast state and empty scene. -/
theorem initializeGPUData_null_vs_empty_witness :
    initializeGPUData camera0 none state0 =
      Except.error ("Scene pointer is null in initializeGPUData", state0) ∧
    initializeGPUData camera0 (some ⟨0, some []⟩) state0 =
      Except.ok { state0 with
        camera := toGPUCamera camera0
        num_spheres := 0
        num_planes := 0 } :=
  ⟨(initializeGPUData_null_vs_empty camera0 state0).1,
   (initializeGPUData_null_vs_empty camera0 state0).2 ⟨0, some []⟩
     (Or.inl rfl)⟩

/-- Claim C1, amended: `initializeGPUData` performs no capacity check against
the 16-element broadcast arrays: for every non-null scene with a non-null,
non-empty object array the upload succeeds — never a configuration error —
and publishes the full flattened sphere and plane counts even when they
exceed 16 (the oversized constant-memory copy itself is refused by the
runtime and its status ignored, so the data arrays are left stale). -/
theorem initializeGPUData_no_capacity_check (camera : Camera)
    (st : BroadcastState) (sc : Scene) (objArray : List ImplicitObject)
    (hobjs : sc.d_implicit_objects = some objArray)
    (hcount : sc.implicit_object_count ≠ 0) :
    ∃ st2, initializeGPUData camera (some sc) st = Except.ok st2 ∧
      st2.num_spheres =
        (flattenSpheres (objArray.take sc.implicit_object_count)).length ∧
      st2.num_planes =
        (flattenPlanes (objArray.take sc.implicit_object_count)).length := by
  obtain ⟨count, objs⟩ := sc
  simp only at hobjs hcount
  subst hobjs
  simp only [initializeGPUData, if_neg hcount]
  exact ⟨_, rfl, rfl, rfl⟩

/-- Counterexample to C1 as stated: uploading 17 spheres does not fail — the
call returns success and publishes `num_spheres = 17` (beyond the capacity
16), leaving the sphere data array stale. -/
theorem initializeGPUData_capacity_claim_counterexample :
    initializeGPUData camera0 (some ⟨17, some seventeenSpheres⟩) state0 =
      Except.ok { state0 with
        camera := toGPUCamera camera0
        num_spheres := 17
        num_planes := 0 } := by
  rfl

/-- Witness for the amended C1 at the concrete 17-sphere scene. -/
theorem initializeGPUData_no_capacity_check_witness :
    ∃ st2, initializeGPUData camera0 (some ⟨17, some seventeenSpheres⟩) state0
        = Except.ok st2 ∧
      st2.num_spheres =
        (flattenSpheres (seventeenSpheres.take 17)).length ∧
      st2.num_planes =
        (flattenPlanes (seventeenSpheres.take 17)).length :=
  initializeGPUData_no_capacity_check camera0 state0 ⟨17, some seventeenSpheres⟩
    seventeenSpheres rfl (by decide)

/-- Claim C3, amended: The Russian-roulette schedule of the bounce loop:
never at bounce indices 0–3; at `depth > 3` it is applied exactly to
non-specular continuing bounces — `p` is the max of the updated throughput's
components, a uniform draw above `p` terminates the path, survival divides
the throughput by `p` — while specular continuations (the source's `continue`
before the roulette block) and terminating bounces skip it. -/
theorem traceStep_rr_spec (sq : ℚ → ℚ) (spheres : List GPUSphere)
    (planes : List GPUPlane) (depth : ℕ) (s : TraceState) :
    traceStep sq spheres planes depth s =
      (match coreStep sq spheres planes s with
       | CoreOut.halt c => StepOut.halt c
       | CoreOut.contSpec s2 => StepOut.cont s2
       | CoreOut.contDiff s2 =>
         if depth > 3 then rrGate s2 else StepOut.cont s2) := by
  by_cases hhit : (intersectScene sq spheres planes s.ray).hit = true
  · rcases hsc : (intersectScene sq spheres planes s.ray).material.scatter
        s.ray (intersectScene sq spheres planes s.ray).toHitRec s.rand with
      ⟨_ | srec, rand⟩
    · simp only [traceStep, coreStep, hhit, if_true, hsc]
    · by_cases hspec : srec.is_specular = true
      · simp only [traceStep, coreStep, hhit, if_true, hsc, hspec]
      · by_cases hdepth : depth > 3
        · simp only [traceStep, coreStep, rrGate, hhit, if_true, hsc, hspec,
            Bool.false_eq_true, if_false, hdepth]
        · simp only [traceStep, coreStep, hhit, if_true, hsc, hspec,
            Bool.false_eq_true, if_false, hdepth]
  · simp only [traceStep, coreStep, hhit, Bool.false_eq_true, if_false]

/-- Counterexample to C3 as stated: with a purely specular (mirror) material
the loop reaches depths 4 and 5 without ever rolling Russian roulette and
returns radiance `63/32`, while the claim's schedule ("at every bounce with
depth > 3") would have terminated the path at depth 4 (the draw 9/10 exceeds
the throughput bound `p = 1/32`) with radiance `31/16`. -/
theorem traceRay_rr_claim_counterexample :
    traceRay (fun _ => 1) [mirrorSphere] [] mirrorRay [9/10] 6 =
        ⟨63/32, 63/32, 63/32⟩ ∧
      traceRayClaim (fun _ => 1) [mirrorSphere] [] mirrorRay [9/10] 6 =
        ⟨31/16, 31/16, 31/16⟩ ∧
      traceRay (fun _ => 1) [mirrorSphere] [] mirrorRay [9/10] 6 ≠
        traceRayClaim (fun _ => 1) [mirrorSphere] [] mirrorRay [9/10] 6 := by
  have h1 : traceRay (fun _ => 1) [mirrorSphere] [] mirrorRay [9/10] 6 =
      ⟨63/32, 63/32, 63/32⟩ := by
    norm_num [traceRay, traceLoop, traceStep, intersectScene, intersectSphere,
      sphereHitRecord, setFaceNormal, scanStep, noHitRec, FLOAT_MAX,
      Ray.isValidDistance, Ray.at, Vec3.dot, Vec3.sub, Vec3.add, Vec3.smul,
      Vec3.sdiv, Vec3.neg, Color.mul, Color.add, Color.smul, Color.ofScalar,
      curandUniform, List.foldl, mirrorMaterial, mirrorSphere, mirrorRay]
  have h2 : traceRayClaim (fun _ => 1) [mirrorSphere] [] mirrorRay [9/10] 6 =
      ⟨31/16, 31/16, 31/16⟩ := by
    norm_num [traceRayClaim, traceLoopClaim, traceStepClaim, coreStep, rrGate,
      intersectScene, intersectSphere, sphereHitRecord, setFaceNormal,
      scanStep, noHitRec, FLOAT_MAX, Ray.isValidDistance, Ray.at, Vec3.dot,
      Vec3.sub, Vec3.add, Vec3.smul, Vec3.sdiv, Vec3.neg, Color.mul,
      Color.add, Color.smul, Color.ofScalar, curandUniform, List.foldl,
      mirrorMaterial, mirrorSphere, mirrorRay]
  refine ⟨h1, h2, ?_⟩
  rw [h1, h2]
  intro hcon
  have := congrArg Color.r hcon
  norm_num at this

/-- Claim C4: Against a scene with zero spheres and zero planes, every traced
ray terminates on the first loop iteration (every loop body invocation halts
immediately with the radiance unchanged) and `traceRay` returns exactly zero
radiance. -/
theorem traceRay_empty_scene (sq : ℚ → ℚ) (ray : Ray) (rand : RandState)
    (max_depth : ℕ) :
    traceRay sq [] [] ray rand max_depth = Color.ofScalar 0 ∧
    (∀ depth s, traceStep sq [] [] depth s = StepOut.halt s.finalColor) := by
  have hstep : ∀ depth s,
      traceStep sq [] [] depth s = StepOut.halt s.finalColor := by
    intro depth s
    have hscene : intersectScene sq [] [] s.ray = noHitRec := rfl
    simp only [traceStep, hscene]
    simp [noHitRec]
  refine ⟨?_, hstep⟩
  cases max_depth with
  | zero => rfl
  | succ n => simp only [traceRay, traceLoop, hstep]

/-- Claim C10: `noise` depends only on the componentwise floor of its input: the
smoothed fractional offsets are dead code, so `noise` is constant on each unit
lattice cell and equals
`hash (hash ⌊x⌋ + hash ⌊y⌋ * 57 + hash ⌊z⌋ * 113)`. -/
theorem noise_depends_only_on_floor (sinQ : ℚ → ℚ) (p q : Vec3)
    (hx : ⌊p.x⌋ = ⌊q.x⌋) (hy : ⌊p.y⌋ = ⌊q.y⌋) (hz : ⌊p.z⌋ = ⌊q.z⌋) :
    noise sinQ p = noise sinQ q ∧
      noise sinQ p =
        hash sinQ (hash sinQ (⌊p.x⌋ : ℚ) + hash sinQ (⌊p.y⌋ : ℚ) * 57 +
          hash sinQ (⌊p.z⌋ : ℚ) * 113) := by
  constructor
  · simp only [noise, hx, hy, hz]
  · rfl

/-- Witness for C10 at concrete points with equal floors. -/
theorem noise_depends_only_on_floor_witness :
    noise (fun _ => 0) ⟨1/2, 1/3, 1/4⟩ = noise (fun _ => 0) ⟨1/5, 2/3, 3/4⟩ ∧
      noise (fun _ => 0) ⟨1/2, 1/3, 1/4⟩ =
        hash (fun _ => 0) (hash (fun _ => 0) ((⌊(1/2 : ℚ)⌋ : ℚ)) +
          hash (fun _ => 0) ((⌊(1/3 : ℚ)⌋ : ℚ)) * 57 +
          hash (fun _ => 0) ((⌊(1/4 : ℚ)⌋ : ℚ)) * 113) :=
  noise_depends_only_on_floor (fun _ => 0) ⟨1/2, 1/3, 1/4⟩ ⟨1/5, 2/3, 3/4⟩
    (by norm_num) (by norm_num) (by norm_num)

/-- Claim C8: `applyRustEffect` with `oxidation_level = 0` returns the base color
unchanged, for every base color, point, pattern scale, roughness, rust tint and
caller-supplied noise value. -/
theorem applyRustEffect_oxidation_zero (sinQ : ℚ → ℚ) (base_color : Color)
    (point : Vec3) (params : RustParameters) (noise_value : ℚ)
    (hox : params.oxidation_level = 0) :
    applyRustEffect sinQ base_color point params noise_value = base_color := by
  obtain ⟨r, g, b⟩ := base_color
  simp only [applyRustEffect, hox, lerp, Color.smul, Color.add, mul_zero,
    mul_one, sub_zero, add_zero, zero_mul]
  norm_num

/-- Witness for C8 at a concrete base color, point and parameter set. -/
theorem applyRustEffect_oxidation_zero_witness :
    applyRustEffect (fun _ => 0) ⟨1/4, 1/2, 3/4⟩ ⟨5, 6, 7⟩
      ⟨0, 1/2, 3, ⟨6/10, 2/10, 1/10⟩⟩ (9/10) = ⟨1/4, 1/2, 3/4⟩ :=
  applyRustEffect_oxidation_zero (fun _ => 0) ⟨1/4, 1/2, 3/4⟩ ⟨5, 6, 7⟩
    ⟨0, 1/2, 3, ⟨6/10, 2/10, 1/10⟩⟩ (9/10) rfl

/-- Claim C9: `applyPaintAging` with `peeling_amount = 0` never takes the peel
branch for a noise sample `< 1`: the threshold is 1, the peel factor is 0, and
the result is the weathered (possibly crack-darkened) color with no
contribution from the underlay color. -/
theorem applyPaintAging_no_peel (sinQ : ℚ → ℚ) (base_color : Color)
    (point : Vec3) (params : PaintAgingParameters) (noise_value : ℚ)
    (hpeel : params.peeling_amount = 0) (hnv : noise_value < 1) :
    peelFactor params noise_value = 0 ∧
      applyPaintAging sinQ base_color point params noise_value =
        (let aged := base_color.smul (1 - params.weathering * (3 / 10))
         if noise sinQ (point.smul (1 + params.crack_density * 10)) <
             params.crack_density * (2 / 10) then
           aged.smul (7 / 10)
         else
           aged) := by
  have hpf : peelFactor params noise_value = 0 := by
    simp only [peelFactor, hpeel, sub_zero, if_neg (not_lt.mpr hnv.le)]
  refine ⟨hpf, ?_⟩
  obtain ⟨r, g, b⟩ := base_color
  simp only [applyPaintAging, hpf, lerp, Color.smul, Color.add, sub_zero,
    mul_one, mul_zero, add_zero, zero_mul]

/-- Witness for C9 at a concrete base color, point and parameter set. -/
theorem applyPaintAging_no_peel_witness :
    peelFactor ⟨0, 1/2, 1/5, ⟨3/10, 3/10, 3/10⟩⟩ (99/100) = 0 ∧
      applyPaintAging (fun _ => 0) ⟨1/2, 1/4, 1/8⟩ ⟨1, 2, 3⟩
        ⟨0, 1/2, 1/5, ⟨3/10, 3/10, 3/10⟩⟩ (99/100) =
      (let aged := (Color.mk (1/2) (1/4) (1/8)).smul
          (1 - (1/5 : ℚ) * (3 / 10))
       if noise (fun _ => 0) ((Vec3.mk 1 2 3).smul (1 + (1/2 : ℚ) * 10)) <
           (1/2 : ℚ) * (2 / 10) then
         aged.smul (7 / 10)
       else
         aged) :=
  applyPaintAging_no_peel (fun _ => 0) ⟨1/2, 1/4, 1/8⟩ ⟨1, 2, 3⟩
    ⟨0, 1/2, 1/5, ⟨3/10, 3/10, 3/10⟩⟩ (99/100) rfl (by norm_num)

/-- Claim C7: The render-kernel accumulation: `frameCount = 0` plainly overwrites
the cell with the new sample; `frameCount > 0` blends with weight
`1/(frameCount+1)` for the new sample; blending a fixed color against itself is
a fixed point for every frame count. -/
theorem accumulatePixel_spec (pixel_color : Color) (prev : Float4)
    (frame_count : ℕ) :
    (frame_count = 0 →
      accumulatePixel pixel_color prev frame_count =
        ⟨pixel_color.r, pixel_color.g, pixel_color.b, 1⟩) ∧
    (frame_count > 0 →
      accumulatePixel pixel_color prev frame_count =
        (let t : ℚ := 1 / ((frame_count : ℚ) + 1)
         let pc := (pixel_color.smul t).add
           ((Color.mk prev.x prev.y prev.z).smul (1 - t))
         ⟨pc.r, pc.g, pc.b, 1⟩)) ∧
    (∀ C : Color, ∀ a : ℚ,
      accumulatePixel C ⟨C.r, C.g, C.b, a⟩ frame_count = ⟨C.r, C.g, C.b, 1⟩) := by
  refine ⟨fun h0 => by simp [accumulatePixel, h0], fun hpos => by
    simp [accumulatePixel, hpos], fun C a => ?_⟩
  by_cases hfc : frame_count > 0
  · have hne : ((frame_count : ℚ) + 1) ≠ 0 := by positivity
    simp only [accumulatePixel, if_pos hfc, Color.smul, Color.add,
      Float4.mk.injEq]
    refine ⟨?_, ?_, ?_, trivial⟩ <;> field_simp <;> ring
  · simp [accumulatePixel, hfc]

/-- Witness for C7 at a concrete pixel color, previous cell and frame count. -/
theorem accumulatePixel_spec_witness :
    accumulatePixel ⟨1/2, 1/3, 1/4⟩ ⟨9, 9, 9, 9⟩ 3 =
        (let t : ℚ := 1 / ((3 : ℕ) + 1)
         let pc := ((Color.mk (1/2) (1/3) (1/4)).smul t).add
           ((Color.mk 9 9 9).smul (1 - t))
         ⟨pc.r, pc.g, pc.b, 1⟩) ∧
      accumulatePixel ⟨1/2, 1/3, 1/4⟩ ⟨1/2, 1/3, 1/4, 0⟩ 3 =
        ⟨1/2, 1/3, 1/4, 1⟩ :=
  ⟨(accumulatePixel_spec ⟨1/2, 1/3, 1/4⟩ ⟨9, 9, 9, 9⟩ 3).2.1 (by decide),
   (accumulatePixel_spec ⟨1/2, 1/3, 1/4⟩ ⟨9, 9, 9, 9⟩ 3).2.2 ⟨1/2, 1/3, 1/4⟩ 0⟩

end PathTracer
